import Mathlib

/-!
# Library Management API — borrowing engine, shallow embedding

This file embeds the transaction engine of the library-management-api
repository (the in-memory transactions router: borrow / return / renew
handlers and their helper functions) as executable Lean definitions, and
proves the claims of the specification about it.

Modelling conventions:
* Instants are modelled as `Int` milliseconds since the epoch (the JS code
  works on `Date` values, whose arithmetic is millisecond arithmetic).
* A calendar day is the fixed 86 400 000 ms used by the JS code in its
  late-fee division; the JS `setDate` day increment in `calculateDueDate`
  is likewise modelled as adding whole 86 400 000 ms days.
* Monetary amounts are integer cents (the JS `0.50` per day and `25.00`
  cap become `50` and `2500`), so `min(d * 0.50, 25.00)` is
  `min (d * 50) 2500`.
* JS arrays of records become `List`s of structures; `find` / `findIndex`
  become `List.find?` / first-match update.
-/

namespace LibraryApi

/-- Milliseconds in one day, the divisor used by the JS code. -/
def msPerDay : Int := 86400000

/-- `getBorrowingLimit` from the transactions router: object lookup with a
`|| 3` fallback for membership types outside the table. -/
def getBorrowingLimit (membershipType : String) : Nat :=
  if membershipType = "BASIC" then 3
  else if membershipType = "PREMIUM" then 10
  else if membershipType = "STUDENT" then 5
  else 3

/-- The `borrowPeriods` table inside `calculateDueDate`, with its `|| 14`
fallback for membership types outside the table. -/
def loanPeriodDays (membershipType : String) : Nat :=
  if membershipType = "BASIC" then 14
  else if membershipType = "PREMIUM" then 30
  else if membershipType = "STUDENT" then 21
  else 14

/-- `calculateDueDate(borrowDate, membershipType)`: adds the loan period in
days to the given date. -/
def calculateDueDate (borrowDate : Int) (membershipType : String) : Int :=
  borrowDate + (loanPeriodDays membershipType : Int) * msPerDay

/-- `calculateLateFee(dueDate, returnDate)` in cents: `0` when the return is
on or before the due date, otherwise `min(ceil(diff/day) * 50, 2500)`.
The JS `Math.ceil(diff / 86400000)` on a positive `diff` is the Nat
ceiling division `(diff + 86400000 - 1) / 86400000`. -/
def calculateLateFee (dueDate returnDate : Int) : Nat :=
  if returnDate ≤ dueDate then 0
  else
    let daysOverdue : Nat := ((returnDate - dueDate).toNat + 86399999) / 86400000
    min (daysOverdue * 50) 2500

/-- The number of overdue days the fee charges for, exposed for the
statements below. -/
def feeDaysOverdue (dueDate returnDate : Int) : Nat :=
  ((returnDate - dueDate).toNat + 86399999) / 86400000

/-! ## Data model

The transactions router keeps three in-memory arrays: `books`, `users`
and `transactions`. Only the fields the engine reads or writes are
modelled. The stored transaction status is only ever BORROWED or
RETURNED; OVERDUE appears solely as a derived display value in the list
endpoint, which never writes back. -/

inductive TransactionStatus where
  | BORROWED
  | RETURNED
deriving DecidableEq, Repr

structure Book where
  bid : String
  availableQuantity : Int
  totalQuantity : Int
deriving DecidableEq, Repr

structure Member where
  uid : String
  membershipType : String
  isActive : Bool
deriving DecidableEq, Repr

structure Transaction where
  tid : String
  userId : String
  bookId : String
  borrowDate : Int
  dueDate : Int
  returnDate : Option Int
  status : TransactionStatus
  lateFee : Nat
  renewalCount : Nat
  notes : String
deriving DecidableEq, Repr

structure LibraryState where
  books : List Book
  users : List Member
  transactions : List Transaction
deriving DecidableEq, Repr

/-- The closed failure taxonomy of the non-success responses of the
handlers, plus `Internal` for the catch-all branch that surfaces a thrown
exception as a 500. -/
inductive Failure where
  | NotFoundBook
  | UnavailableBook
  | NotFoundMember
  | LimitReached
  | AlreadyBorrowed
  | NotFoundTransaction
  | Forbidden
  | AlreadyReturned
  | RenewalLimitReached
  | Overdue
  | NotRenewable
  | Internal
deriving DecidableEq, Repr

/-- The HTTP status each failure is sent with (`res.status(...)` in the
handlers). -/
def statusCode : Failure → Nat
  | .NotFoundBook => 404
  | .NotFoundMember => 404
  | .NotFoundTransaction => 404
  | .Forbidden => 403
  | .Internal => 500
  | _ => 400

/-- Mutation in the style `books[bookIndex].availableQuantity -= 1`: the JS
code looks up `findIndex` (first match) and mutates that element in
place. -/
def updateFirstBook (bs : List Book) (bookId : String) (f : Book → Book) : List Book :=
  match bs with
  | [] => []
  | b :: rest =>
    if b.bid = bookId then f b :: rest else b :: updateFirstBook rest bookId f

/-- `transactions[transactionIndex] = updatedTransaction`: first-match
replacement, mirroring `findIndex` followed by index assignment. -/
def updateFirstTransaction (ts : List Transaction) (transactionId : String)
    (f : Transaction → Transaction) : List Transaction :=
  match ts with
  | [] => []
  | t :: rest =>
    if t.tid = transactionId then f t :: rest
    else t :: updateFirstTransaction rest transactionId f

/-- The limit check of the borrow handler:
`transactions.filter(t => t.userId === userId && t.status === BORROWED).length`. -/
def currentBorrowedCount (ts : List Transaction) (userId : String) : Nat :=
  (ts.filter (fun t => t.userId = userId ∧ t.status = .BORROWED)).length

/-- The number of stored-BORROWED transactions referencing a book; used by
the availability invariant below. -/
def activeCountFor (ts : List Transaction) (bookId : String) : Nat :=
  (ts.filter (fun t => t.bookId = bookId ∧ t.status = .BORROWED)).length

/-- Contribution of one transaction to `activeCountFor`. -/
def contrib (t : Transaction) (bookId : String) : Nat :=
  if t.bookId = bookId ∧ t.status = .BORROWED then 1 else 0

/-- The borrow handler (`POST /borrow`): translates the precondition chain
and the mutation of the JS route verbatim — find book, availability check,
find user (existence only; the isActive flag is never read), borrowing
limit check, duplicate active borrow check, then push the new transaction
and decrement the availableQuantity of the book. -/
def borrow (s : LibraryState) (userId bookId : String) (notes : String)
    (now : Int) : Except Failure (LibraryState × Transaction) :=
  match s.books.find? (fun b => b.bid = bookId) with
  | none => .error .NotFoundBook
  | some book =>
    if book.availableQuantity ≤ 0 then .error .UnavailableBook
    else
      match s.users.find? (fun u => u.uid = userId) with
      | none => .error .NotFoundMember
      | some user =>
        let borrowingLimit := getBorrowingLimit user.membershipType
        if currentBorrowedCount s.transactions userId ≥ borrowingLimit then
          .error .LimitReached
        else if (s.transactions.find? (fun t =>
            t.userId = userId ∧ t.bookId = bookId ∧ t.status = .BORROWED)).isSome then
          .error .AlreadyBorrowed
        else
          let newTransaction : Transaction :=
            { tid := "trans" ++ toString (s.transactions.length + 1)
              userId := userId
              bookId := bookId
              borrowDate := now
              dueDate := calculateDueDate now user.membershipType
              returnDate := none
              status := .BORROWED
              lateFee := 0
              renewalCount := 0
              notes := notes }
          let s' : LibraryState :=
            { s with
              transactions := s.transactions ++ [newTransaction]
              books := updateFirstBook s.books bookId
                (fun b => { b with availableQuantity := b.availableQuantity - 1 }) }
          .ok (s', newTransaction)

/-- The guarded increment of the return handler: `if (book) { ... += 1 }`,
with no clamp against totalQuantity. -/
def incrementBookIfFound (bs : List Book) (bookId : String) : List Book :=
  match bs.find? (fun b => b.bid = bookId) with
  | some _ => updateFirstBook bs bookId
      (fun b => { b with availableQuantity := b.availableQuantity + 1 })
  | none => bs

/-- The return handler (`POST /return`): find transaction, ownership check,
already-returned check, then set returnDate / status / lateFee on the
transaction and increment the availableQuantity of the book when the book
is found. -/
def returnBook (s : LibraryState) (userId transactionId : String)
    (now : Int) : Except Failure (LibraryState × Transaction) :=
  match s.transactions.find? (fun t => t.tid = transactionId) with
  | none => .error .NotFoundTransaction
  | some transaction =>
    if transaction.userId ≠ userId then .error .Forbidden
    else if transaction.status = .RETURNED then .error .AlreadyReturned
    else
      let lateFee := calculateLateFee transaction.dueDate now
      let updatedTransaction : Transaction :=
        { transaction with
          returnDate := some now
          status := .RETURNED
          lateFee := lateFee }
      let s' : LibraryState :=
        { s with
          transactions :=
            updateFirstTransaction s.transactions transactionId
              (fun _ => updatedTransaction)
          books := incrementBookIfFound s.books transaction.bookId }
      .ok (s', updatedTransaction)

/-- The renew handler (`POST /:id/renew`): find transaction, ownership
check, status check, renewal limit check (`renewalCount >= 3`), overdue
check (`dueDate < now`), then look the user up to read membershipType.
The JS code dereferences `user.membershipType` without a null check; a
missing user throws a TypeError that the surrounding catch turns into a
500 response — modelled as `Failure.Internal`. -/
def renew (s : LibraryState) (userId transactionId : String)
    (now : Int) : Except Failure (LibraryState × Transaction) :=
  match s.transactions.find? (fun t => t.tid = transactionId) with
  | none => .error .NotFoundTransaction
  | some transaction =>
    if transaction.userId ≠ userId then .error .Forbidden
    else if transaction.status ≠ .BORROWED then .error .NotRenewable
    else if transaction.renewalCount ≥ 3 then .error .RenewalLimitReached
    else if transaction.dueDate < now then .error .Overdue
    else
      match s.users.find? (fun u => u.uid = userId) with
      | none => .error .Internal
      | some user =>
        let newDueDate := calculateDueDate transaction.dueDate user.membershipType
        let updatedTransaction : Transaction :=
          { transaction with
            dueDate := newDueDate
            renewalCount := transaction.renewalCount + 1 }
        let s' : LibraryState :=
          { s with
            transactions :=
              updateFirstTransaction s.transactions transactionId
                (fun _ => updatedTransaction) }
        .ok (s', updatedTransaction)

/-- One engine call, for quantifying over sequences of operations. -/
inductive Op where
  | borrowOp (userId bookId notes : String) (now : Int)
  | returnOp (userId transactionId : String) (now : Int)
deriving DecidableEq, Repr

/-- Run one call against the state; a failing call leaves the state as it
was (every error branch in the JS handlers returns before any mutation). -/
def applyOp (s : LibraryState) (op : Op) : LibraryState :=
  match op with
  | .borrowOp userId bookId notes now =>
    match borrow s userId bookId notes now with
    | .ok (s', _) => s'
    | .error _ => s
  | .returnOp userId transactionId now =>
    match returnBook s userId transactionId now with
    | .ok (s', _) => s'
    | .error _ => s

def runOps (s : LibraryState) (ops : List Op) : LibraryState :=
  ops.foldl applyOp s

/-- The state after a renew call; a failing call leaves the state as it
was. -/
def applyRenew (s : LibraryState) (userId transactionId : String)
    (now : Int) : LibraryState :=
  match renew s userId transactionId now with
  | .ok (s', _) => s'
  | .error _ => s

/-- The availability invariant: book ids are pairwise distinct, and each
book has a non-negative available count whose sum with the number of
active (stored-BORROWED) transactions referencing it stays within
totalQuantity. The seed data of the repository satisfies it. -/
def LibInv (s : LibraryState) : Prop :=
  (s.books.map (·.bid)).Nodup ∧
  ∀ b ∈ s.books, 0 ≤ b.availableQuantity ∧
    b.availableQuantity + (activeCountFor s.transactions b.bid : Int) ≤ b.totalQuantity

instance (s : LibraryState) : Decidable (LibInv s) := by
  unfold LibInv; infer_instance

/-! ## Concrete states used by counterexamples and witnesses -/

/-- The seed data of the transactions router (mock arrays at the top of the
file). The mock user records of that router carry no isActive field; the
flag is modelled as `true` and is never read by the handlers. -/
def initialState : LibraryState :=
  { books :=
      [⟨"book1", 3, 5⟩, ⟨"book2", 2, 4⟩, ⟨"book3", 1, 3⟩]
    users :=
      [⟨"user1", "PREMIUM", true⟩, ⟨"user2", "STUDENT", true⟩]
    transactions :=
      [⟨"trans1", "user1", "book1", 1705276800000, 1707868800000, none, .BORROWED, 0, 0, ""⟩,
       ⟨"trans2", "user2", "book2", 1704844800000, 1706745600000,
        some 1706572800000, .RETURNED, 0, 1, ""⟩] }

/-- A state with an inactive member who satisfies every other borrow
precondition. -/
def inactiveMemberState : LibraryState :=
  { books := [⟨"book1", 3, 5⟩]
    users := [⟨"user1", "BASIC", false⟩]
    transactions := [] }

/-- A state in which a book is at full availability while an active
transaction still references it. -/
def unclampedState : LibraryState :=
  { books := [⟨"book1", 5, 5⟩]
    users := [⟨"user1", "BASIC", true⟩]
    transactions := [⟨"trans1", "user1", "book1", 0, 100, none, .BORROWED, 0, 0, ""⟩] }

/-- Scenario A: a full book (5 of 5) and a PREMIUM member with no active
loans. -/
def scenarioAState : LibraryState :=
  { books := [⟨"book1", 5, 5⟩]
    users := [⟨"user1", "PREMIUM", true⟩]
    transactions := [] }

/-- A state with one active loan, for exercising the return path twice. -/
def returnTwiceState : LibraryState :=
  { books := [⟨"book1", 2, 5⟩]
    users := [⟨"user1", "BASIC", true⟩]
    transactions := [⟨"trans1", "user1", "book1", 0, 100, none, .BORROWED, 0, 0, ""⟩] }

/-- A renewable loan of a PREMIUM member, renewalCount 0, due at 30 days. -/
def renewFreshState : LibraryState :=
  { books := [⟨"book1", 4, 5⟩]
    users := [⟨"user1", "PREMIUM", true⟩]
    transactions := [⟨"trans1", "user1", "book1", 0, 2592000000, none, .BORROWED, 0, 0, ""⟩] }

/-- The same loan after three successful renewals: renewalCount 3, due
date extended by three loan periods. -/
def renewExhaustedState : LibraryState :=
  { books := [⟨"book1", 4, 5⟩]
    users := [⟨"user1", "PREMIUM", true⟩]
    transactions := [⟨"trans1", "user1", "book1", 0, 10368000000, none, .BORROWED, 0, 3, ""⟩] }

/-- A loan owned by a user who is absent from the user store, with every
renew precondition otherwise satisfied. -/
def orphanRenewState : LibraryState :=
  { books := []
    users := []
    transactions := [⟨"trans9", "user9", "book9", 0, 100, none, .BORROWED, 0, 0, ""⟩] }

/-- The empty store, for exercising the NotFound branches. -/
def emptyState : LibraryState :=
  { books := [], users := [], transactions := [] }

/-- `Except` success test, used to state that a call did not fail. -/
def isOk {ε α : Type} : Except ε α → Bool
  | .ok _ => true
  | .error _ => false

/-! ## Helper lemmas -/

theorem find?_updateFirstBook_self (bs : List Book) (bookId : String)
    (f : Book → Book) (b : Book)
    (hb : bs.find? (fun x => x.bid = bookId) = some b)
    (hf : (f b).bid = b.bid) :
    (updateFirstBook bs bookId f).find? (fun x => x.bid = bookId) = some (f b) := by
  induction bs with
  | nil => simp at hb
  | cons x rest ih =>
    by_cases hx : x.bid = bookId
    · rw [List.find?_cons_of_pos _ (by simpa using hx)] at hb
      injection hb with hb
      subst hb
      rw [updateFirstBook, if_pos hx]
      exact List.find?_cons_of_pos _ (by simp [hf, hx])
    · rw [List.find?_cons_of_neg _ (by simpa using hx)] at hb
      rw [updateFirstBook, if_neg hx, List.find?_cons_of_neg _ (by simpa using hx)]
      exact ih hb

theorem find?_updateFirstTransaction_self (ts : List Transaction)
    (transactionId : String) (f : Transaction → Transaction) (t : Transaction)
    (ht : ts.find? (fun x => x.tid = transactionId) = some t)
    (hf : (f t).tid = t.tid) :
    (updateFirstTransaction ts transactionId f).find? (fun x => x.tid = transactionId)
      = some (f t) := by
  induction ts with
  | nil => simp at ht
  | cons x rest ih =>
    by_cases hx : x.tid = transactionId
    · rw [List.find?_cons_of_pos _ (by simpa using hx)] at ht
      injection ht with ht
      subst ht
      rw [updateFirstTransaction, if_pos hx]
      exact List.find?_cons_of_pos _ (by simp [hf, hx])
    · rw [List.find?_cons_of_neg _ (by simpa using hx)] at ht
      rw [updateFirstTransaction, if_neg hx, List.find?_cons_of_neg _ (by simpa using hx)]
      exact ih ht

/-- Fully evaluated success case of the borrow handler. -/
theorem borrow_success_spec (s : LibraryState) (userId bookId notes : String)
    (now : Int) (book : Book) (user : Member)
    (hb : s.books.find? (fun b => b.bid = bookId) = some book)
    (havail : 0 < book.availableQuantity)
    (hu : s.users.find? (fun u => u.uid = userId) = some user)
    (hlimit : currentBorrowedCount s.transactions userId < getBorrowingLimit user.membershipType)
    (hdup : s.transactions.find? (fun t =>
      t.userId = userId ∧ t.bookId = bookId ∧ t.status = .BORROWED) = none) :
    borrow s userId bookId notes now =
      .ok
        ({ s with
            transactions := s.transactions ++
              [{ tid := "trans" ++ toString (s.transactions.length + 1)
                 userId := userId, bookId := bookId, borrowDate := now
                 dueDate := calculateDueDate now user.membershipType
                 returnDate := none, status := .BORROWED, lateFee := 0
                 renewalCount := 0, notes := notes }]
            books := updateFirstBook s.books bookId
              (fun b => { b with availableQuantity := b.availableQuantity - 1 }) },
         { tid := "trans" ++ toString (s.transactions.length + 1)
           userId := userId, bookId := bookId, borrowDate := now
           dueDate := calculateDueDate now user.membershipType
           returnDate := none, status := .BORROWED, lateFee := 0
           renewalCount := 0, notes := notes }) := by
  have h1 : ¬ book.availableQuantity ≤ 0 := not_le.mpr havail
  have h2 : ¬ currentBorrowedCount s.transactions userId ≥
      getBorrowingLimit user.membershipType := not_le.mpr hlimit
  simp [borrow, hb, hu, hdup, h1, h2]
  intro x hx hux hbx hsx
  have hnone := List.find?_eq_none.mp hdup x hx
  simp only [decide_eq_true_eq] at hnone
  exact hnone ⟨hux, hbx, hsx⟩

/-- Fully evaluated success case of the return handler. -/
theorem return_success_spec (s : LibraryState) (userId transactionId : String)
    (now : Int) (t : Transaction)
    (ht : s.transactions.find? (fun x => x.tid = transactionId) = some t)
    (hown : t.userId = userId)
    (hstat : ¬ t.status = .RETURNED) :
    returnBook s userId transactionId now =
      .ok
        ({ s with
            transactions := updateFirstTransaction s.transactions transactionId
              (fun _ => { t with
                          returnDate := some now
                          status := .RETURNED
                          lateFee := calculateLateFee t.dueDate now })
            books := incrementBookIfFound s.books t.bookId },
         { t with
           returnDate := some now
           status := .RETURNED
           lateFee := calculateLateFee t.dueDate now }) := by
  have h1 : ¬ t.userId ≠ userId := fun h => h hown
  simp [returnBook, ht, h1, hstat]

/-- Fully evaluated success case of the renew handler. -/
theorem renew_success_spec (s : LibraryState) (userId transactionId : String)
    (now : Int) (t : Transaction) (user : Member)
    (ht : s.transactions.find? (fun x => x.tid = transactionId) = some t)
    (hown : t.userId = userId)
    (hstat : t.status = .BORROWED)
    (hcount : t.renewalCount < 3)
    (hdue : now ≤ t.dueDate)
    (hu : s.users.find? (fun u => u.uid = userId) = some user) :
    renew s userId transactionId now =
      .ok
        ({ s with
            transactions := updateFirstTransaction s.transactions transactionId
              (fun _ => { t with
                          dueDate := calculateDueDate t.dueDate user.membershipType
                          renewalCount := t.renewalCount + 1 }) },
         { t with
           dueDate := calculateDueDate t.dueDate user.membershipType
           renewalCount := t.renewalCount + 1 }) := by
  have h1 : ¬ t.userId ≠ userId := fun h => h hown
  have h2 : ¬ t.status ≠ TransactionStatus.BORROWED := fun h => h hstat
  have h3 : ¬ t.renewalCount ≥ 3 := not_le.mpr hcount
  have h4 : ¬ t.dueDate < now := not_lt.mpr hdue
  simp [renew, ht, hu, h1, h2, h3, h4]

theorem calculateLateFee_of_le {dueDate returnDate : Int}
    (h : returnDate ≤ dueDate) : calculateLateFee dueDate returnDate = 0 := by
  simp [calculateLateFee, h]

theorem calculateLateFee_of_lt {dueDate returnDate : Int}
    (h : dueDate < returnDate) :
    calculateLateFee dueDate returnDate =
      min (feeDaysOverdue dueDate returnDate * 50) 2500 := by
  simp [calculateLateFee, feeDaysOverdue, not_le.mpr h]

/-- `feeDaysOverdue` is the ceiling of `(returnDate - dueDate) / msPerDay`:
it is the least `d` with `returnDate ≤ dueDate + d * msPerDay`, whenever
the return is strictly late. -/
theorem feeDaysOverdue_is_ceiling {dueDate returnDate : Int}
    (h : dueDate < returnDate) :
    returnDate ≤ dueDate + (feeDaysOverdue dueDate returnDate : Int) * msPerDay ∧
    dueDate + ((feeDaysOverdue dueDate returnDate : Int) - 1) * msPerDay < returnDate := by
  have hdiff : 0 < returnDate - dueDate := by omega
  set diff : Nat := (returnDate - dueDate).toNat with hdiffdef
  have hdiffeq : (diff : Int) = returnDate - dueDate := by
    rw [hdiffdef]; exact Int.toNat_of_nonneg (by omega)
  have hdpos : 0 < diff := by omega
  have hceil : feeDaysOverdue dueDate returnDate = (diff + 86399999) / 86400000 := rfl
  constructor
  · have hle : diff ≤ ((diff + 86399999) / 86400000) * 86400000 := by
      have h1 := Nat.div_add_mod (diff + 86399999) 86400000
      have h2 : (diff + 86399999) % 86400000 < 86400000 := Nat.mod_lt _ (by omega)
      omega
    have : (diff : Int) ≤ (((diff + 86399999) / 86400000 : Nat) : Int) * 86400000 := by
      exact_mod_cast hle
    rw [hceil]
    simp only [msPerDay]
    omega
  · have hgt : ((diff + 86399999) / 86400000 - 1) * 86400000 < diff := by
      have hmul := Nat.div_mul_le_self (diff + 86399999) 86400000
      have hdiv_pos : 0 < (diff + 86399999) / 86400000 := by
        apply Nat.div_pos <;> omega
      omega
    have : (((diff + 86399999) / 86400000 - 1 : Nat) : Int) * 86400000 < (diff : Int) := by
      exact_mod_cast hgt
    rw [hceil]
    simp only [msPerDay]
    have hdiv_pos : 0 < (diff + 86399999) / 86400000 := by
      apply Nat.div_pos <;> omega
    have hcast : (((diff + 86399999) / 86400000 - 1 : Nat) : Int)
        = ((diff + 86399999) / 86400000 : Nat) - 1 := by
      omega
    omega

theorem calculateLateFee_mono (dueDate : Int) {e1 e2 : Int} (h : e1 ≤ e2) :
    calculateLateFee dueDate e1 ≤ calculateLateFee dueDate e2 := by
  unfold calculateLateFee
  split
  · exact Nat.zero_le _
  · next h1 =>
    split
    · omega
    · next h2 =>
      have hmono : (e1 - dueDate).toNat ≤ (e2 - dueDate).toNat := by omega
      have : ((e1 - dueDate).toNat + 86399999) / 86400000
          ≤ ((e2 - dueDate).toNat + 86399999) / 86400000 :=
        Nat.div_le_div_right (by omega)
      simp only []
      omega

/-! ## Claim theorems -/

/-- C3: for every dueDate and evaluation date, the fee is 0 when the
evaluation is on or before the due date; otherwise it is
min(daysOverdue * $0.50, $25.00) (in cents: `min (d * 50) 2500`) where
daysOverdue is the ceiling of the elapsed time in days, characterised as
the least day count covering the overdue interval; a return exactly 6 days
late costs 300 cents ($3.00). -/
theorem late_fee_formula (dueDate returnDate : Int) :
    (returnDate ≤ dueDate → calculateLateFee dueDate returnDate = 0) ∧
    (dueDate < returnDate →
      calculateLateFee dueDate returnDate =
        min (feeDaysOverdue dueDate returnDate * 50) 2500 ∧
      returnDate ≤ dueDate + (feeDaysOverdue dueDate returnDate : Int) * msPerDay ∧
      dueDate + ((feeDaysOverdue dueDate returnDate : Int) - 1) * msPerDay < returnDate) ∧
    calculateLateFee 0 (6 * msPerDay) = 300 := by
  refine ⟨fun h => calculateLateFee_of_le h,
    fun h => ⟨calculateLateFee_of_lt h, feeDaysOverdue_is_ceiling h⟩, ?_⟩
  decide

/-- Witness for C3 at the Scenario B dates, 2024-02-14 and 2024-02-20 as
epoch milliseconds (six days apart): the fee is $3.00 = 300 cents. -/
theorem late_fee_formula_witness :
    (1707868800000 : Int) < 1708387200000 ∧
    calculateLateFee 1707868800000 1708387200000 =
      min (feeDaysOverdue 1707868800000 1708387200000 * 50) 2500 ∧
    calculateLateFee 1707868800000 1708387200000 = 300 := by
  refine ⟨by decide, ((late_fee_formula 1707868800000 1708387200000).2.1 (by decide)).1, ?_⟩
  decide

/-- C8: the policy lookup maps BASIC→(3, 14), PREMIUM→(10, 30),
STUDENT→(5, 21), and every membership type outside this set falls back to
the BASIC values (3, 14) rather than erroring. -/
theorem policy_table (m : String) :
    getBorrowingLimit "BASIC" = 3 ∧ loanPeriodDays "BASIC" = 14 ∧
    getBorrowingLimit "PREMIUM" = 10 ∧ loanPeriodDays "PREMIUM" = 30 ∧
    getBorrowingLimit "STUDENT" = 5 ∧ loanPeriodDays "STUDENT" = 21 ∧
    (m ≠ "BASIC" → m ≠ "PREMIUM" → m ≠ "STUDENT" →
      getBorrowingLimit m = 3 ∧ loanPeriodDays m = 14) := by
  refine ⟨rfl, rfl, rfl, rfl, rfl, rfl, fun h1 h2 h3 => ?_⟩
  simp [getBorrowingLimit, loanPeriodDays, h1, h2, h3]

/-- Witness for C8 at the unknown membership type "GOLD": the fallback
values are the BASIC pair (3, 14). -/
theorem policy_table_witness :
    getBorrowingLimit "GOLD" = 3 ∧ loanPeriodDays "GOLD" = 14 :=
  (policy_table "GOLD").2.2.2.2.2.2 (by decide) (by decide) (by decide)

/-- C9: for a fixed due date the late fee is non-decreasing in the
evaluation date over dates past the due date, and for every evaluation
date it never exceeds 2500 cents ($25.00). -/
theorem late_fee_monotone_capped (dueDate : Int) :
    (∀ e1 e2 : Int, dueDate < e1 → e1 ≤ e2 →
      calculateLateFee dueDate e1 ≤ calculateLateFee dueDate e2) ∧
    (∀ e : Int, calculateLateFee dueDate e ≤ 2500) := by
  refine ⟨fun e1 e2 _ h => calculateLateFee_mono dueDate h, fun e => ?_⟩
  unfold calculateLateFee
  split
  · exact Nat.zero_le _
  · exact min_le_right _ _

/-- Witness for C9: at due date 0, fees at one and at two days overdue are
ordered and the fee ten thousand days overdue still sits at the cap. -/
theorem late_fee_monotone_capped_witness :
    calculateLateFee 0 86400000 ≤ calculateLateFee 0 172800000 ∧
    calculateLateFee 0 (10000 * 86400000) ≤ 2500 :=
  ⟨(late_fee_monotone_capped 0).1 86400000 172800000 (by decide) (by decide),
   (late_fee_monotone_capped 0).2 (10000 * 86400000)⟩

/-- C1 counterexample: in `inactiveMemberState` the member "user1" exists
with isActive = false and every other borrow precondition holds, yet the
borrow call succeeds instead of failing with NotFound(Member) — the
handler only tests existence of the user record and never reads the
isActive flag. -/
theorem borrow_inactive_member_counterexample :
    (∃ u, u ∈ inactiveMemberState.users ∧ u.uid = "user1" ∧ u.isActive = false) ∧
    borrow inactiveMemberState "user1" "book1" "" 0 ≠ .error .NotFoundMember ∧
    isOk (borrow inactiveMemberState "user1" "book1" "" 0) = true := by
  have h : borrow inactiveMemberState "user1" "book1" "" 0 =
      .ok
        ({ books := [⟨"book1", 2, 5⟩]
           users := [⟨"user1", "BASIC", false⟩]
           transactions := [⟨"trans1", "user1", "book1", 0, 1209600000, none, .BORROWED, 0, 0, ""⟩] },
         ⟨"trans1", "user1", "book1", 0, 1209600000, none, .BORROWED, 0, 0, ""⟩) := by
    rfl
  refine ⟨⟨⟨"user1", "BASIC", false⟩, by simp [inactiveMemberState], rfl, rfl⟩, ?_, by rw [h]; rfl⟩
  rw [h]
  simp

/-- C1 (amended): the borrow preconditions are checked in order, first
failing one winning — (1) book exists else NotFound(Book), (2) positive
availability else Unavailable, (3) the member EXISTS else NotFound(Member)
— the isActive flag is not consulted — (4) the active-transaction count is
below the policy limit else LimitReached, (5) no active transaction for
the (userId, bookId) pair else AlreadyBorrowed; when all five pass the
borrow succeeds, whatever the value of isActive. -/
theorem borrow_precondition_order (s : LibraryState)
    (userId bookId notes : String) (now : Int) :
    (s.books.find? (fun b => b.bid = bookId) = none →
      borrow s userId bookId notes now = .error .NotFoundBook) ∧
    (∀ book, s.books.find? (fun b => b.bid = bookId) = some book →
      book.availableQuantity ≤ 0 →
      borrow s userId bookId notes now = .error .UnavailableBook) ∧
    (∀ book, s.books.find? (fun b => b.bid = bookId) = some book →
      0 < book.availableQuantity →
      s.users.find? (fun u => u.uid = userId) = none →
      borrow s userId bookId notes now = .error .NotFoundMember) ∧
    (∀ book user, s.books.find? (fun b => b.bid = bookId) = some book →
      0 < book.availableQuantity →
      s.users.find? (fun u => u.uid = userId) = some user →
      getBorrowingLimit user.membershipType ≤ currentBorrowedCount s.transactions userId →
      borrow s userId bookId notes now = .error .LimitReached) ∧
    (∀ book user, s.books.find? (fun b => b.bid = bookId) = some book →
      0 < book.availableQuantity →
      s.users.find? (fun u => u.uid = userId) = some user →
      currentBorrowedCount s.transactions userId < getBorrowingLimit user.membershipType →
      (s.transactions.find? (fun t =>
        t.userId = userId ∧ t.bookId = bookId ∧ t.status = .BORROWED)).isSome = true →
      borrow s userId bookId notes now = .error .AlreadyBorrowed) ∧
    (∀ book user, s.books.find? (fun b => b.bid = bookId) = some book →
      0 < book.availableQuantity →
      s.users.find? (fun u => u.uid = userId) = some user →
      currentBorrowedCount s.transactions userId < getBorrowingLimit user.membershipType →
      s.transactions.find? (fun t =>
        t.userId = userId ∧ t.bookId = bookId ∧ t.status = .BORROWED) = none →
      ∃ s' t', borrow s userId bookId notes now = .ok (s', t')) := by
  refine ⟨fun h => by simp [borrow, h],
    fun book hb hle => by simp [borrow, hb, hle],
    fun book hb hpos hu => by simp [borrow, hb, not_le.mpr hpos, hu],
    fun book user hb hpos hu hlim => by
      simp [borrow, hb, not_le.mpr hpos, hu, hlim],
    fun book user hb hpos hu hlim hdup => by
      simp only [List.find?_isSome, decide_eq_true_eq] at hdup
      simp [borrow, hb, not_le.mpr hpos, hu, not_le.mpr hlim, hdup],
    fun book user hb hpos hu hlim hdup =>
      ⟨_, _, borrow_success_spec s userId bookId notes now book user hb hpos hu hlim hdup⟩⟩

/-- Witness for C1 (amended), first and third checks at concrete states:
the empty store rejects the borrow with NotFound(Book), and a store that
holds the book but not the member rejects it with NotFound(Member). -/
theorem borrow_precondition_order_witness :
    borrow emptyState "user1" "book1" "" 0 = .error .NotFoundBook ∧
    borrow { books := [⟨"book1", 3, 5⟩], users := [], transactions := [] }
      "user1" "book1" "" 0 = .error .NotFoundMember :=
  ⟨(borrow_precondition_order emptyState "user1" "book1" "" 0).1 rfl,
   (borrow_precondition_order
      { books := [⟨"book1", 3, 5⟩], users := [], transactions := [] }
      "user1" "book1" "" 0).2.2.1 ⟨"book1", 3, 5⟩ rfl (by decide) rfl⟩

/-- C6: a successful borrow decrements availableQuantity of the book by 1
and appends a fresh transaction with status BORROWED, borrowDate = now,
dueDate = now + loanPeriodDays(membershipType) in days, lateFee = 0 and
renewalCount = 0, leaving the user store untouched. -/
theorem borrow_effect (s : LibraryState) (userId bookId notes : String)
    (now : Int) (book : Book) (user : Member)
    (hb : s.books.find? (fun b => b.bid = bookId) = some book)
    (havail : 0 < book.availableQuantity)
    (hu : s.users.find? (fun u => u.uid = userId) = some user)
    (hlimit : currentBorrowedCount s.transactions userId < getBorrowingLimit user.membershipType)
    (hdup : s.transactions.find? (fun t =>
      t.userId = userId ∧ t.bookId = bookId ∧ t.status = .BORROWED) = none) :
    ∃ s' tnew, borrow s userId bookId notes now = .ok (s', tnew) ∧
      tnew.status = .BORROWED ∧
      tnew.borrowDate = now ∧
      tnew.dueDate = now + (loanPeriodDays user.membershipType : Int) * msPerDay ∧
      tnew.lateFee = 0 ∧
      tnew.renewalCount = 0 ∧
      s'.transactions = s.transactions ++ [tnew] ∧
      s'.users = s.users ∧
      s'.books.find? (fun b => b.bid = bookId) =
        some { book with availableQuantity := book.availableQuantity - 1 } := by
  refine ⟨_, _,
    borrow_success_spec s userId bookId notes now book user hb havail hu hlimit hdup,
    rfl, rfl, rfl, rfl, rfl, rfl, rfl, ?_⟩
  exact find?_updateFirstBook_self s.books bookId _ book hb rfl

/-- Witness for C6 at Scenario A: a PREMIUM member borrows from a full
book (5 of 5); availability drops to 4 and the due date is 30 days after
the borrow instant. -/
theorem borrow_effect_witness :
    ∃ s' tnew, borrow scenarioAState "user1" "book1" "" 0 = .ok (s', tnew) ∧
      tnew.status = .BORROWED ∧
      tnew.borrowDate = 0 ∧
      tnew.dueDate = 0 + (loanPeriodDays "PREMIUM" : Int) * msPerDay ∧
      tnew.lateFee = 0 ∧
      tnew.renewalCount = 0 ∧
      s'.transactions = scenarioAState.transactions ++ [tnew] ∧
      s'.users = scenarioAState.users ∧
      s'.books.find? (fun b => b.bid = "book1") = some ⟨"book1", 4, 5⟩ :=
  borrow_effect scenarioAState "user1" "book1" "" 0 ⟨"book1", 5, 5⟩
    ⟨"user1", "PREMIUM", true⟩ rfl (by decide) rfl (by decide) rfl

/-- C4: returning a borrowed transaction succeeds once — setting status to
RETURNED and incrementing the availableQuantity of the book — and a second
return of the same transactionId fails with AlreadyReturned, leaving the
state unchanged, so the increment happens exactly once across the two
calls. -/
theorem return_twice (s : LibraryState) (userId transactionId : String)
    (now1 now2 : Int) (t : Transaction) (book : Book)
    (ht : s.transactions.find? (fun x => x.tid = transactionId) = some t)
    (hown : t.userId = userId)
    (hstat : t.status = .BORROWED)
    (hbook : s.books.find? (fun b => b.bid = t.bookId) = some book) :
    ∃ s' t', returnBook s userId transactionId now1 = .ok (s', t') ∧
      t'.status = .RETURNED ∧
      t'.returnDate = some now1 ∧
      t'.lateFee = calculateLateFee t.dueDate now1 ∧
      s'.books.find? (fun b => b.bid = t.bookId) =
        some { book with availableQuantity := book.availableQuantity + 1 } ∧
      returnBook s' userId transactionId now2 = .error .AlreadyReturned ∧
      applyOp s' (.returnOp userId transactionId now2) = s' := by
  have hstat' : ¬ t.status = TransactionStatus.RETURNED := by simp [hstat]
  subst hown
  have h1 := return_success_spec s t.userId transactionId now1 t ht rfl hstat'
  have hfind := find?_updateFirstTransaction_self s.transactions transactionId
    (fun _ => { t with returnDate := some now1, status := .RETURNED, lateFee := calculateLateFee t.dueDate now1 })
    t ht rfl
  have hsecond : returnBook
      ({ s with
          transactions := updateFirstTransaction s.transactions transactionId
            (fun _ => { t with returnDate := some now1, status := .RETURNED, lateFee := calculateLateFee t.dueDate now1 })
          books := incrementBookIfFound s.books t.bookId })
      t.userId transactionId now2 = .error .AlreadyReturned := by
    simp [returnBook, hfind]
  refine ⟨_, _, h1, rfl, rfl, rfl, ?_, hsecond, ?_⟩
  · show (incrementBookIfFound s.books t.bookId).find? (fun b => b.bid = t.bookId) = _
    simp only [incrementBookIfFound, hbook]
    exact find?_updateFirstBook_self s.books t.bookId _ book hbook rfl
  · simp [applyOp, hsecond]

/-- Witness for C4 at a concrete one-loan state: the first return succeeds
and bumps the book from 2 to 3 available, the second fails with
AlreadyReturned and changes nothing. -/
theorem return_twice_witness :
    ∃ s' t', returnBook returnTwiceState "user1" "trans1" 200 = .ok (s', t') ∧
      t'.status = .RETURNED ∧
      t'.returnDate = some 200 ∧
      t'.lateFee = calculateLateFee 100 200 ∧
      s'.books.find? (fun b => b.bid = "book1") = some ⟨"book1", 3, 5⟩ ∧
      returnBook s' "user1" "trans1" 300 = .error .AlreadyReturned ∧
      applyOp s' (.returnOp "user1" "trans1" 300) = s' :=
  return_twice returnTwiceState "user1" "trans1" 200 300
    ⟨"trans1", "user1", "book1", 0, 100, none, .BORROWED, 0, 0, ""⟩
    ⟨"book1", 2, 5⟩ rfl rfl rfl rfl

/-- C5: a successful renew extends the due date from the OLD due date by
loanPeriodDays(membershipType) — not from the renewal moment — and
increments renewalCount by 1; once renewalCount has reached 3, a further
renew attempt fails with RenewalLimitReached. -/
theorem renew_effect_and_limit (s : LibraryState) (userId transactionId : String)
    (now : Int) (t : Transaction) (user : Member)
    (ht : s.transactions.find? (fun x => x.tid = transactionId) = some t)
    (hown : t.userId = userId)
    (hstat : t.status = .BORROWED)
    (hu : s.users.find? (fun u => u.uid = userId) = some user) :
    (t.renewalCount < 3 → now ≤ t.dueDate →
      ∃ s' t', renew s userId transactionId now = .ok (s', t') ∧
        t'.dueDate = t.dueDate + (loanPeriodDays user.membershipType : Int) * msPerDay ∧
        t'.renewalCount = t.renewalCount + 1 ∧
        s'.transactions.find? (fun x => x.tid = transactionId) = some t') ∧
    (3 ≤ t.renewalCount →
      renew s userId transactionId now = .error .RenewalLimitReached) := by
  constructor
  · intro hcount hdue
    refine ⟨_, _,
      renew_success_spec s userId transactionId now t user ht hown hstat hcount hdue hu,
      rfl, rfl, ?_⟩
    exact find?_updateFirstTransaction_self s.transactions transactionId _ t ht rfl
  · intro hcount
    have h1 : ¬ t.userId ≠ userId := fun h => h hown
    have h2 : ¬ t.status ≠ TransactionStatus.BORROWED := fun h => h hstat
    simp [renew, ht, h1, h2, hcount]

/-- Witness for C5: a fresh PREMIUM loan due at day 30 renews to a due
date one loan period past the OLD due date with renewalCount 1, and the
same loan with renewalCount already 3 is rejected with
RenewalLimitReached. -/
theorem renew_effect_and_limit_witness :
    (∃ s' t', renew renewFreshState "user1" "trans1" 0 = .ok (s', t') ∧
      t'.dueDate = 2592000000 + (loanPeriodDays "PREMIUM" : Int) * msPerDay ∧
      t'.renewalCount = 1 ∧
      s'.transactions.find? (fun x => x.tid = "trans1") = some t') ∧
    renew renewExhaustedState "user1" "trans1" 0 = .error .RenewalLimitReached := by
  constructor
  · exact (renew_effect_and_limit renewFreshState "user1" "trans1" 0
      ⟨"trans1", "user1", "book1", 0, 2592000000, none, .BORROWED, 0, 0, ""⟩
      ⟨"user1", "PREMIUM", true⟩ rfl rfl rfl rfl).1 (by decide) (by decide)
  · exact (renew_effect_and_limit renewExhaustedState "user1" "trans1" 0
      ⟨"trans1", "user1", "book1", 0, 10368000000, none, .BORROWED, 0, 3, ""⟩
      ⟨"user1", "PREMIUM", true⟩ rfl rfl rfl rfl).2 (by decide)

/-- C7: renewing a transaction whose due date has passed (dueDate < now)
fails with Overdue and leaves the state untouched, renewalCount included;
when now ≤ dueDate the overdue check never produces the Overdue failure. -/
theorem renew_overdue_rejected (s : LibraryState) (userId transactionId : String)
    (now : Int) (t : Transaction)
    (ht : s.transactions.find? (fun x => x.tid = transactionId) = some t)
    (hown : t.userId = userId)
    (hstat : t.status = .BORROWED)
    (hcount : t.renewalCount < 3) :
    (t.dueDate < now →
      renew s userId transactionId now = .error .Overdue ∧
      applyRenew s userId transactionId now = s) ∧
    (now ≤ t.dueDate → renew s userId transactionId now ≠ .error .Overdue) := by
  have h1 : ¬ t.userId ≠ userId := fun h => h hown
  have h2 : ¬ t.status ≠ TransactionStatus.BORROWED := fun h => h hstat
  have h3 : ¬ t.renewalCount ≥ 3 := not_le.mpr hcount
  constructor
  · intro hlt
    have heq : renew s userId transactionId now = .error .Overdue := by
      simp [renew, ht, h1, h2, h3, hlt]
    exact ⟨heq, by simp [applyRenew, heq]⟩
  · intro hdue
    have h4 : ¬ t.dueDate < now := not_lt.mpr hdue
    cases hu : s.users.find? (fun u => u.uid = userId) with
    | none => simp [renew, ht, h1, h2, h3, h4, hu]
    | some user => simp [renew, ht, h1, h2, h3, h4, hu]

/-- Witness for C7 at a concrete loan due at instant 100: renewing at 200
fails Overdue without touching the state, renewing at 50 does not produce
the Overdue failure. -/
theorem renew_overdue_rejected_witness :
    (renew returnTwiceState "user1" "trans1" 200 = .error .Overdue ∧
     applyRenew returnTwiceState "user1" "trans1" 200 = returnTwiceState) ∧
    renew returnTwiceState "user1" "trans1" 50 ≠ .error .Overdue := by
  constructor
  · exact (renew_overdue_rejected returnTwiceState "user1" "trans1" 200
      ⟨"trans1", "user1", "book1", 0, 100, none, .BORROWED, 0, 0, ""⟩
      rfl rfl rfl (by decide)).1 (by decide)
  · exact (renew_overdue_rejected returnTwiceState "user1" "trans1" 50
      ⟨"trans1", "user1", "book1", 0, 100, none, .BORROWED, 0, 0, ""⟩
      rfl rfl rfl (by decide)).2 (by decide)

/-- C10: in `orphanRenewState` the transaction exists, is owned by the
caller, is BORROWED, has renewalCount below 3 and is not past due, but the
owning member is absent from the user store; the handler reaches the
membershipType dereference of a missing user and the call surfaces as the
untyped Internal failure with HTTP status 500, not as any member of the
closed taxonomy. -/
theorem renew_missing_user_internal :
    orphanRenewState.users.find? (fun u => u.uid = "user9") = none ∧
    renew orphanRenewState "user9" "trans9" 0 = .error .Internal ∧
    statusCode .Internal = 500 :=
  ⟨rfl, rfl, rfl⟩

/-! ## Availability invariant machinery (C2) -/

theorem contrib_eq_one {t : Transaction} {bookId : String}
    (h1 : t.bookId = bookId) (h2 : t.status = .BORROWED) :
    contrib t bookId = 1 := by
  simp [contrib, h1, h2]

theorem contrib_eq_zero_of_ne {t : Transaction} {bookId : String}
    (h : t.bookId ≠ bookId) : contrib t bookId = 0 := by
  simp [contrib, h]

theorem contrib_eq_zero_of_returned {t : Transaction} {bookId : String}
    (h : t.status = .RETURNED) : contrib t bookId = 0 := by
  simp [contrib, h]

theorem activeCountFor_cons (x : Transaction) (ts : List Transaction)
    (bookId : String) :
    activeCountFor (x :: ts) bookId = contrib x bookId + activeCountFor ts bookId := by
  by_cases h : x.bookId = bookId ∧ x.status = .BORROWED
  · simp [activeCountFor, List.filter_cons, contrib, h, Nat.add_comm]
  · simp [activeCountFor, List.filter_cons, contrib, h]

theorem activeCountFor_append_single (ts : List Transaction) (t : Transaction)
    (bookId : String) :
    activeCountFor (ts ++ [t]) bookId
      = activeCountFor ts bookId + contrib t bookId := by
  by_cases h : t.bookId = bookId ∧ t.status = .BORROWED
  · simp [activeCountFor, List.filter_append, contrib, h]
  · simp [activeCountFor, List.filter_append, contrib, h]

theorem activeCountFor_updateFirst (ts : List Transaction) (transactionId : String)
    (t tNew : Transaction) (bookId : String)
    (ht : ts.find? (fun x => x.tid = transactionId) = some t) :
    activeCountFor (updateFirstTransaction ts transactionId (fun _ => tNew)) bookId
        + contrib t bookId
      = activeCountFor ts bookId + contrib tNew bookId := by
  induction ts with
  | nil => simp at ht
  | cons x rest ih =>
    by_cases hx : x.tid = transactionId
    · rw [List.find?_cons_of_pos _ (by simpa using hx)] at ht
      injection ht with ht
      subst ht
      rw [updateFirstTransaction, if_pos hx, activeCountFor_cons, activeCountFor_cons]
      omega
    · rw [List.find?_cons_of_neg _ (by simpa using hx)] at ht
      rw [updateFirstTransaction, if_neg hx, activeCountFor_cons, activeCountFor_cons]
      have := ih ht
      omega

theorem updateFirstBook_map_bid (bs : List Book) (bookId : String)
    (f : Book → Book) (hf : ∀ b, (f b).bid = b.bid) :
    (updateFirstBook bs bookId f).map (fun b => b.bid) = bs.map (fun b => b.bid) := by
  induction bs with
  | nil => rfl
  | cons x rest ih =>
    rw [updateFirstBook]
    split
    · simp [hf]
    · simp only [List.map_cons, ih]

theorem updateFirstBook_eq_map (bs : List Book) (bookId : String)
    (f : Book → Book) (hnodup : (bs.map (fun b => b.bid)).Nodup) :
    updateFirstBook bs bookId f
      = bs.map (fun b => if b.bid = bookId then f b else b) := by
  induction bs with
  | nil => rfl
  | cons x rest ih =>
    simp only [List.map_cons, List.nodup_cons] at hnodup
    rw [updateFirstBook]
    split
    · next hx =>
      have hrest : ∀ b ∈ rest, ¬ (b.bid = bookId) := by
        intro b hb hbid
        exact hnodup.1 (by rw [hx, ← hbid]; exact List.mem_map_of_mem _ hb)
      rw [List.map_cons, if_pos hx]
      congr 1
      symm
      exact (List.map_congr_left fun b hb => if_neg (hrest b hb)).trans (List.map_id rest)
    · next hx =>
      rw [List.map_cons, if_neg hx, ih hnodup.2]

/-- A successful borrow preserves the availability invariant: the
decremented book also gains one active transaction, every other book's
ledger entry is untouched. -/
theorem inv_after_borrow (s : LibraryState) (bookId : String) (book : Book)
    (newT : Transaction) (h : LibInv s)
    (hb : s.books.find? (fun b => b.bid = bookId) = some book)
    (havail : 0 < book.availableQuantity)
    (hn1 : newT.bookId = bookId) (hn2 : newT.status = .BORROWED) :
    LibInv
      { books := updateFirstBook s.books bookId
          (fun b => { b with availableQuantity := b.availableQuantity - 1 })
        users := s.users
        transactions := s.transactions ++ [newT] } := by
  refine ⟨?_, ?_⟩
  · dsimp only
    rw [updateFirstBook_map_bid s.books bookId
      (fun b => { b with availableQuantity := b.availableQuantity - 1 }) (fun b => rfl)]
    exact h.1
  · intro b' hb'
    dsimp only at hb' ⊢
    rw [updateFirstBook_eq_map _ _ _ h.1] at hb'
    obtain ⟨b, hbmem, rfl⟩ := List.mem_map.mp hb'
    obtain ⟨hb0, hbsum⟩ := h.2 b hbmem
    have hcnt : ∀ bid, activeCountFor (s.transactions ++ [newT]) bid
        = activeCountFor s.transactions bid + contrib newT bid :=
      fun bid => activeCountFor_append_single s.transactions newT bid
    by_cases hbid : b.bid = bookId
    · have hbookmem := List.mem_of_find?_eq_some hb
      have hbookbid : book.bid = bookId := by simpa using List.find?_some hb
      have hbb : b = book :=
        List.inj_on_of_nodup_map h.1 hbmem hbookmem (by rw [hbid, hbookbid])
      have hbavail : 0 < b.availableQuantity := hbb ▸ havail
      rw [if_pos hbid]
      dsimp only
      constructor
      · omega
      · rw [hcnt b.bid, contrib_eq_one (by rw [hn1, hbid]) hn2]
        push_cast
        omega
    · rw [if_neg hbid]
      refine ⟨hb0, ?_⟩
      rw [hcnt b.bid, contrib_eq_zero_of_ne (fun h' => hbid (h'.symm.trans hn1))]
      omega

/-- A successful return preserves the availability invariant: the found
transaction flips from BORROWED to RETURNED, so the book it references
loses one active transaction while gaining one available copy. -/
theorem inv_after_return (s : LibraryState) (transactionId : String)
    (t tNew : Transaction) (h : LibInv s)
    (ht : s.transactions.find? (fun x => x.tid = transactionId) = some t)
    (hstat : t.status = .BORROWED)
    (hn : tNew.status = .RETURNED) :
    LibInv
      { books := incrementBookIfFound s.books t.bookId
        users := s.users
        transactions :=
          updateFirstTransaction s.transactions transactionId (fun _ => tNew) } := by
  have hcnt : ∀ bid,
      activeCountFor (updateFirstTransaction s.transactions transactionId
        (fun _ => tNew)) bid + contrib t bid
      = activeCountFor s.transactions bid := by
    intro bid
    have hc := activeCountFor_updateFirst s.transactions transactionId t tNew bid ht
    rw [contrib_eq_zero_of_returned hn] at hc
    omega
  refine ⟨?_, ?_⟩
  · dsimp only
    unfold incrementBookIfFound
    split
    · rw [updateFirstBook_map_bid s.books t.bookId
        (fun b => { b with availableQuantity := b.availableQuantity + 1 }) (fun b => rfl)]
      exact h.1
    · exact h.1
  · intro b' hb'
    dsimp only at hb' ⊢
    unfold incrementBookIfFound at hb'
    split at hb'
    · next bk hfound =>
      rw [updateFirstBook_eq_map _ _ _ h.1] at hb'
      obtain ⟨b, hbmem, rfl⟩ := List.mem_map.mp hb'
      obtain ⟨hb0, hbsum⟩ := h.2 b hbmem
      by_cases hbid : b.bid = t.bookId
      · rw [if_pos hbid]
        dsimp only
        constructor
        · omega
        · have hcb := hcnt b.bid
          rw [contrib_eq_one hbid.symm hstat] at hcb
          omega
      · rw [if_neg hbid]
        refine ⟨hb0, ?_⟩
        have hcb := hcnt b.bid
        rw [contrib_eq_zero_of_ne (fun h' => hbid h'.symm)] at hcb
        omega
    · next hnotfound =>
      obtain ⟨hb0, hbsum⟩ := h.2 b' hb'
      refine ⟨hb0, ?_⟩
      have hb'bid : ¬ (b'.bid = t.bookId) := by
        have := List.find?_eq_none.mp hnotfound b' hb'
        simpa using this
      have hcb := hcnt b'.bid
      rw [contrib_eq_zero_of_ne (fun h' => hb'bid h'.symm)] at hcb
      omega

theorem borrow_ok_inv (s s' : LibraryState) (tr : Transaction)
    (userId bookId notes : String) (now : Int)
    (hres : borrow s userId bookId notes now = .ok (s', tr))
    (h : LibInv s) : LibInv s' := by
  simp only [borrow] at hres
  split at hres
  · simp at hres
  · next book hb =>
    split at hres
    · simp at hres
    · next havail =>
      split at hres
      · simp at hres
      · next user hu =>
        split at hres
        · simp at hres
        · next hlim =>
          split at hres
          · simp at hres
          · next hdup =>
            injection hres with hres
            injection hres with h1 h2
            subst h1
            exact inv_after_borrow s bookId book _ h hb (by omega) rfl rfl

theorem returnBook_ok_inv (s s' : LibraryState) (tr : Transaction)
    (userId transactionId : String) (now : Int)
    (hres : returnBook s userId transactionId now = .ok (s', tr))
    (h : LibInv s) : LibInv s' := by
  simp only [returnBook] at hres
  split at hres
  · simp at hres
  · next t ht =>
    split at hres
    · simp at hres
    · next hown =>
      split at hres
      · simp at hres
      · next hstat =>
        injection hres with hres
        injection hres with h1 h2
        subst h1
        have hstatB : t.status = .BORROWED := by
          cases hs : t.status
          · rfl
          · exact absurd hs hstat
        exact inv_after_return s transactionId t _ h ht hstatB rfl

theorem applyOp_inv (s : LibraryState) (op : Op) (h : LibInv s) :
    LibInv (applyOp s op) := by
  cases op with
  | borrowOp userId bookId notes now =>
    simp only [applyOp]
    cases hres : borrow s userId bookId notes now with
    | ok p =>
      exact borrow_ok_inv s p.1 p.2 userId bookId notes now (by rw [hres]) h
    | error e => exact h
  | returnOp userId transactionId now =>
    simp only [applyOp]
    cases hres : returnBook s userId transactionId now with
    | ok p =>
      exact returnBook_ok_inv s p.1 p.2 userId transactionId now (by rw [hres]) h
    | error e => exact h

/-- C2 counterexample: `unclampedState` satisfies the claimed per-book
bounds (0 ≤ availableQuantity ≤ totalQuantity), yet one Return call pushes
the book to 6 available of 5 total — the increment in the return handler
is not clamped. -/
theorem return_increment_unclamped_counterexample :
    (∀ b ∈ unclampedState.books,
      0 ≤ b.availableQuantity ∧ b.availableQuantity ≤ b.totalQuantity) ∧
    ∃ s' t', returnBook unclampedState "user1" "trans1" 50 = .ok (s', t') ∧
      s'.books.find? (fun b => b.bid = "book1") = some ⟨"book1", 6, 5⟩ :=
  ⟨by decide,
   { books := [⟨"book1", 6, 5⟩]
     users := [⟨"user1", "BASIC", true⟩]
     transactions := [⟨"trans1", "user1", "book1", 0, 100, some 50, .RETURNED, 0, 0, ""⟩] },
   ⟨"trans1", "user1", "book1", 0, 100, some 50, .RETURNED, 0, 0, ""⟩,
   rfl, rfl⟩

/-- C2 (amended): from any state where book ids are distinct and each book
has 0 ≤ availableQuantity and availableQuantity + active-transaction count
within totalQuantity — as the seed data does — every sequence of Borrow
and Return calls keeps 0 ≤ availableQuantity ≤ totalQuantity for every
book; the return increment carries no clamp, but cannot exceed
totalQuantity from such states because each active transaction is returned
at most once. -/
theorem availability_invariant (s : LibraryState) (ops : List Op)
    (h : LibInv s) :
    ∀ b ∈ (runOps s ops).books,
      0 ≤ b.availableQuantity ∧ b.availableQuantity ≤ b.totalQuantity := by
  have hinv : ∀ s0, LibInv s0 → LibInv (runOps s0 ops) := by
    induction ops with
    | nil => exact fun s0 hs => hs
    | cons op rest ih => exact fun s0 hs => ih (applyOp s0 op) (applyOp_inv s0 op hs)
  intro b hb
  obtain ⟨h0, hsum⟩ := (hinv s h).2 b hb
  have hnn : 0 ≤ (activeCountFor (runOps s ops).transactions b.bid : Int) :=
    Int.natCast_nonneg _
  exact ⟨h0, by omega⟩

/-- Witness for C2 (amended): the seed data satisfies the invariant, and
after a concrete borrow of book2 followed by the return of trans1 every
book still satisfies 0 ≤ availableQuantity ≤ totalQuantity. -/
theorem availability_invariant_witness :
    LibInv initialState ∧
    ∀ b ∈ (runOps initialState
        [.borrowOp "user2" "book3" "" 1707000000000,
         .returnOp "user1" "trans1" 1708387200000]).books,
      0 ≤ b.availableQuantity ∧ b.availableQuantity ≤ b.totalQuantity :=
  ⟨by decide, availability_invariant initialState _ (by decide)⟩

end LibraryApi
